import Mathlib

/-!
Verification of the dataset package manager of `data_common`
(`data_common/dataset/version_management.py`, `table_management.py`,
`resource_management.py`), via a shallow embedding of its data model and
operations in Lean.  Python strings are Lean `String`s, Python `None` is
`Option.none`, Python exceptions are `Except.error`, Python dicts are
insertion-ordered association lists.
-/

namespace DataCommon

/-! ## String primitives

Python-level string operations, implemented by structural recursion over
the character list (the Lean core `String` versions are not used because
several are defined through iterators).  -/

/-- Python `s.split(sep)` for a single-character separator:
`"" .split "." = [""]`, separators at the ends produce empty chunks. -/
def splitOnCharAux (c : Char) : List Char → List Char → List String
  | [], acc => [String.mk acc.reverse]
  | x :: xs, acc =>
    if x = c then String.mk acc.reverse :: splitOnCharAux c xs []
    else splitOnCharAux c xs (x :: acc)

/-- Python `s.split(c)` for a one-character separator. -/
def splitOnChar (c : Char) (s : String) : List String :=
  splitOnCharAux c s.toList []

/-- Python `int(s)` restricted to the plain decimal strings it is applied
to here (`none` where `int` would raise). -/
def digitsToNat? (s : String) : Option Nat :=
  let cs := s.toList
  if cs ≠ [] ∧ cs.all Char.isDigit then
    some (cs.foldl (fun n ch => n * 10 + (ch.toNat - '0'.toNat)) 0)
  else
    none

/-- Python `c in s` for a single character. -/
def strContainsChar (c : Char) (s : String) : Bool :=
  s.toList.any (fun x => x = c)

/-- Python string `<=`: lexicographic by code point. -/
def charListLe : List Char → List Char → Bool
  | [], _ => true
  | _ :: _, [] => false
  | x :: xs, y :: ys => if x = y then charListLe xs ys else decide (x < y)

/-- Python `a <= b` on strings. -/
def pyStrLe (a b : String) : Prop :=
  charListLe a.toList b.toList = true

instance : DecidableRel pyStrLe := fun a b => by
  unfold pyStrLe; infer_instance

/-- Python `c.lower()` for one character (ASCII). -/
def charLower (c : Char) : Char :=
  if 'A' ≤ c ∧ c ≤ 'Z' then Char.ofNat (c.toNat + 32) else c

/-- Python `s.lower()` (ASCII inputs only, as used on rule names). -/
def pyLower (s : String) : String :=
  String.mk (s.toList.map charLower)

/-! ## SemVer engine (`version_management.py`) -/

/-- Result of `parse_semver`: the named groups of the semver regex.
`major`/`minor`/`patch` are the numeric components as strings; `prerelease`
and `build` are `none` when the optional groups did not match. -/
structure SemverParts where
  major : String
  minor : String
  patch : String
  prerelease : Option String
  build : Option String
deriving DecidableEq, Repr

/-- Split a list at the first occurrence of `c`; `none` if `c` is absent.
Used to mirror how the semver regex cuts the string at the first `+`
(start of build metadata) and first `-` (start of prerelease). -/
def splitFirst (c : Char) : List Char → Option (List Char × List Char)
  | [] => none
  | x :: xs =>
    if x = c then some ([], xs)
    else
      match splitFirst c xs with
      | some (l, r) => some (x :: l, r)
      | none => none

/-- `0|[1-9]\d*`: a decimal number with no leading zeros. -/
def isNumericNoLeadingZeros (s : String) : Bool :=
  match s.toList with
  | [] => false
  | [c] => c.isDigit
  | c :: rest => ('1' ≤ c && c ≤ '9') && rest.all Char.isDigit

/-- A character in the class `[0-9A-Za-z-]`. -/
def isSemverIdentChar (c : Char) : Bool :=
  c.isAlphanum || c = '-'

/-- `[0-9A-Za-z-]+(\.[0-9A-Za-z-]+)*`: one or more dot-separated non-empty
runs of ident characters. -/
def isDottedIdents (s : String) : Bool :=
  (splitOnChar '.' s).all fun chunk =>
    !chunk.isEmpty && chunk.toList.all isSemverIdentChar

/-- `parse_semver`: match the anchored semver regex
`^(major)\.(minor)\.(patch)(?:-(prerelease))?(?:\+(build))?$` and return the
group dictionary, or `None` on failure.  The first `+` in the string starts
the build metadata (no earlier group admits `+`); within the part before it,
the first `-` starts the prerelease (the numeric triple has no `-`). -/
def parse_semver (version_string : String) : Option SemverParts :=
  let chars := version_string.toList
  let (beforePlus, build?) :=
    match splitFirst '+' chars with
    | some (l, r) => (l, some (String.mk r))
    | none => (chars, none)
  let (core, pre?) :=
    match splitFirst '-' beforePlus with
    | some (l, r) => (l, some (String.mk r))
    | none => (beforePlus, none)
  let buildOk := match build? with
    | some b => isDottedIdents b
    | none => true
  let preOk := match pre? with
    | some p => isDottedIdents p
    | none => true
  match splitOnChar '.' (String.mk core) with
  | [a, b, c] =>
    if isNumericNoLeadingZeros a && isNumericNoLeadingZeros b &&
        isNumericNoLeadingZeros c && preOk && buildOk then
      some { major := a, minor := b, patch := c, prerelease := pre?, build := build? }
    else
      none
  | _ => none

/-- `is_valid_semver`: true iff `parse_semver` succeeds. -/
def is_valid_semver (semver : String) : Bool :=
  (parse_semver semver).isSome

/-- Python `int(...)` applied to a matched numeric group (always a plain
decimal, so the fallback is never taken). -/
def toInt10 (s : String) : Nat :=
  (digitsToNat? s).getD 0

/-- The numeric (major, minor, patch) triple of a parse result. -/
def semverNums (p : SemverParts) : Nat × Nat × Nat :=
  (toInt10 p.major, toInt10 p.minor, toInt10 p.patch)

/-- `semver_is_higher`: True iff `semver2` is a higher version than
`semver1`; False when either string fails to parse. -/
def semver_is_higher (semver1 semver2 : String) : Bool :=
  match parse_semver semver1, parse_semver semver2 with
  | none, _ => false
  | _, none => false
  | some d1, some d2 =>
    if toInt10 d2.major > toInt10 d1.major then true
    else if toInt10 d2.major == toInt10 d1.major &&
        toInt10 d2.minor > toInt10 d1.minor then true
    else if toInt10 d2.major == toInt10 d1.major &&
        toInt10 d2.minor == toInt10 d1.minor &&
        toInt10 d2.patch > toInt10 d1.patch then true
    else false

/-- `bump_version`: bump the requested part, resetting the lower parts, and
return `major.minor.patch` joined with dots (a `ValueError` on an invalid
semver or choice becomes `Except.error`).  Note the return value is built
from the three numeric parts only: prerelease and build are discarded. -/
def bump_version (semver choice : String) : Except String String :=
  match parse_semver semver with
  | none => .error s!"Invalid semvar {semver}"
  | some parts =>
    if ¬ (choice = "major" ∨ choice = "minor" ∨ choice = "patch") then
      .error s!"Invalid choice: {choice}"
    else
      let major := if choice = "major" then toString (toInt10 parts.major + 1) else parts.major
      let minor :=
        if choice = "major" then "0"
        else if choice = "minor" then toString (toInt10 parts.minor + 1)
        else parts.minor
      let patch :=
        if choice = "major" ∨ choice = "minor" then "0"
        else toString (toInt10 parts.patch + 1)
      .ok (String.intercalate "." [major, minor, patch])

/-! ## Ordered dictionaries (Python `dict` semantics)

Insertion-ordered association lists: setting an existing key replaces its
value in place, setting a new key appends it at the end; `dict.update`
sets every key of the right operand in order. -/

/-- `d[k] = v` on an insertion-ordered dict. -/
def dictSet {β : Type} : List (String × β) → String → β → List (String × β)
  | [], k, v => [(k, v)]
  | (k', v') :: d, k, v =>
    if k' = k then (k', v) :: d
    else (k', v') :: dictSet d k v

/-- `d.update(e)` on insertion-ordered dicts. -/
def dictUpdate {β : Type} (d e : List (String × β)) : List (String × β) :=
  e.foldl (fun acc p => dictSet acc p.1 p.2) d

/-- The key list of a dict, in insertion order. -/
def dictKeys {β : Type} (d : List (String × β)) : List String :=
  d.map Prod.fst

/-! ## Schema inference (`table_management.py`)

A column of a loaded dataframe is a list of cells; a missing value
(pandas `NaN`) is `none`, any other value is represented by the string
pandas' `str` conversion would give it (the schema code only ever uses
values through `str`, equality, and sorting of `str` forms, so this
representation is faithful for scalar columns).  A table is its named
columns in order. -/

/-- One cell of a column: `none` is a missing value. -/
abbrev Cell := Option String

/-- A dataframe: column names with their cells, in column order. -/
abbrev PyTable := List (String × List Cell)

/-- Python `str(x)` of a cell: pandas renders a missing value as `nan`. -/
def cellStr : Cell → String
  | some s => s
  | none => "nan"

/-- `pd.isnull` on an element of a series produced by `.apply(str)`:
every element is a Python `str`, so this is always `False`.  (This is the
reason the blank-entry guard in `update_table_schema.safe_unique` never
fires.) -/
def strIsNull (_ : String) : Bool := false

/-- `series.unique()`: distinct values in order of first appearance
(a missing value counts as a value of its own). -/
def uniqueListAux {α : Type} [DecidableEq α] (seen : List α) : List α → List α
  | [] => []
  | a :: l =>
    if a ∈ seen then uniqueListAux seen l
    else a :: uniqueListAux (a :: seen) l

/-- `series.unique().tolist()` in first-appearance order. -/
def uniqueList {α : Type} [DecidableEq α] (l : List α) : List α :=
  uniqueListAux [] l

/-- `series.nunique()` for a series with no missing values (our uses apply
it after `.apply(str)`). -/
def nunique (l : List String) : Nat :=
  (uniqueList l).length

/-- Python `sorted` on strings: ascending lexicographic by code point. -/
def sortedStrings (l : List String) : List String :=
  List.insertionSort pyStrLe l

/-- `is_unique`: all values of the series are unique, comparing the `str`
forms (`len(series) == len(series.astype(str).unique())`). -/
def is_unique (col : List Cell) : Bool :=
  col.length == (uniqueList (col.map cellStr)).length

/-- `get_example`: drop missing values, sort the `str` forms, and return
the first, or `""` for an all-missing column. -/
def get_example (col : List Cell) : String :=
  match sortedStrings (col.filterMap id) with
  | [] => ""
  | s :: _ => s

/-- `update_table_schema.safe_unique`: after `col.apply(str)` the column
has fewer than 15 distinct entries and no null entries.  The null check is
applied to the `str`-converted series, for which `isnull` is always
`False`. -/
def safe_unique (col : List Cell) : Bool :=
  let str_col := col.map cellStr
  nunique str_col < 15 && !(str_col.any strIsNull)

/-- One entry of `schema["fields"]` after `Schema.enhance_field`.  Field
`type` and `example` are spelled `ftype`/`fexample` (`type` and `example`
are Lean keywords); `constraints_unique`/`constraints_enum` are the
`unique` and `enum` entries of `constraints`, `constraints_enum = none`
meaning no `enum` key. -/
structure FieldSchema where
  name : String
  ftype : String
  fexample : String
  description : Option String
  constraints_unique : Bool
  constraints_enum : Option (List String)
deriving DecidableEq, Repr

/-- `get_descriptions_from_schema`: map field names to their non-`None`
descriptions. -/
def get_descriptions_from_schema (fields : List FieldSchema) : List (String × String) :=
  fields.filterMap fun f => f.description.map fun d => (f.name, d)

/-- `Schema.enhance_field` for one column whose `build_table_schema` entry
has name `nm` and inferred type `ty`.  `isEnumCol` says whether the column
was passed in `enums` (always as `Schema.USE_UNIQUE`, i.e.
`series.unique().tolist()`); the enum list then has `None` entries removed
and is sorted. -/
def enhance_field (nm ty : String) (col : List Cell)
    (descriptions : List (String × String)) (isEnumCol : Bool) : FieldSchema :=
  { name := nm
    ftype := ty
    description := descriptions.lookup nm
    constraints_unique := is_unique col
    fexample := get_example col
    constraints_enum :=
      if isEnumCol then
        some (sortedStrings ((uniqueList col).filterMap id))
      else
        none }

/-- `update_table_schema` after the file has been loaded into `table`.
`inferType` stands for the per-column type tag `pd.io.json.build_table_schema`
assigns (an external, deterministic collaborator); the fields come out in
column order, enhanced with descriptions from the existing schema and enum
constraints for the `safe_unique` columns. -/
def update_table_schema (inferType : List Cell → String) (table : PyTable)
    (existing_schema : Option (List FieldSchema)) : List FieldSchema :=
  let descriptions :=
    match existing_schema with
    | some fields => get_descriptions_from_schema fields
    | none => []
  table.map fun p =>
    enhance_field p.1 (inferType p.2) p.2 descriptions (safe_unique p.2)

/-! ## Resource sidecar and `DataResource.rebuild_yaml`
(`resource_management.py`, lines 208-276)

The sidecar yaml document, as loaded by `get_resource` and rewritten by
`rebuild_yaml`.  The keys the code handles by name are record fields;
`extra` holds the remaining keys contributed by frictionless `describe`
and preserved by the `desc.update(existing_desc)` dict merge, in dict
order; `custom_extra` holds the entries of `custom` other than
`row_count`, which `rebuild_yaml` preserves (it only overwrites
`custom["row_count"]`). -/

structure Sidecar where
  title : Option String
  description : Option String
  custom_extra : List (String × String)
  row_count : Nat
  shash : String
  schema : List FieldSchema
  spath : String
  extra : List (String × String)
deriving DecidableEq

/-- The geodata special case of `rebuild_yaml`: blank the `example` of the
`geometry` field. -/
def blankGeometryExample (isGeodata : Bool) (fields : List FieldSchema) : List FieldSchema :=
  if isGeodata then
    fields.map fun f => if f.name = "geometry" then { f with fexample := "" } else f
  else
    fields

/-- `DataResource.rebuild_yaml`: rebuild the sidecar document from the
data file, preserving title/description/custom of a previously existing
sidecar (`existing = none` when no sidecar yaml exists yet).  The external
collaborators are passed as arguments, each a deterministic function of
the unchanged data file alone: `inferType` (pandas `build_table_schema`
type tags), `describeExtra` (the frictionless `describe` result keys that
are not subsequently overwritten), `md5` (content digest of the file
bytes), `rowCount` (the duckdb `COUNT(*)`), and `table` (the parsed
dataframe). -/
def rebuild_yaml (inferType : List Cell → String)
    (describeExtra : List (String × String)) (table : PyTable)
    (fileName md5 : String) (rowCount : Nat) (isGeodata : Bool)
    (existing : Option Sidecar) : Sidecar :=
  { title := match existing with | some e => e.title | none => none
    description := match existing with | some e => e.description | none => none
    custom_extra := match existing with | some e => e.custom_extra | none => []
    row_count := rowCount
    shash := md5
    schema := blankGeometryExample isGeodata
      (update_table_schema inferType table (existing.map Sidecar.schema))
    spath := fileName
    extra := dictUpdate describeExtra
      (match existing with | some e => e.extra | none => []) }

/-! ## Package metadata and the bump-rule engine
(`resource_management.py`, `derive_bump_rule_from_change` and the version
bump operations)

`PackageMeta` is the document `get_current_datapackage_json` produces:
the package yaml with `resources` replaced by the resource sidecars, in
the order `resources()` yields them.  Values the engine only compares for
equality and prints (name, identifier, licenses, descriptive fields) are
kept as `Option String`, `none` meaning the key is absent (`dict.get`
returns `None`). -/

/-- One entry of a resource's `schema["fields"]` as the bump-rule engine
reads it. -/
structure FieldMeta where
  name : String
  ftype : String
  description : Option String
  fexample : Option String
deriving DecidableEq, Repr

/-- One entry of the `resources` list of the full datapackage document. -/
structure ResourceMeta where
  name : String
  title : Option String
  description : Option String
  keywords : Option String
  sheet_order : Option Int
  fields : List FieldMeta
  row_count : Nat
  rhash : String
deriving DecidableEq, Repr

/-- The full datapackage document of one package state. -/
structure PackageMeta where
  name : Option String
  identifier : Option String
  version : String
  licenses : Option String
  title : Option String
  description : Option String
  keywords : Option String
  sources : Option String
  contributors : Option String
  resources : List ResourceMeta
  custom : List (String × String)
deriving DecidableEq, Repr

/-- `DataPackage.get_current_version`: the `version` key, with `.0`
appended when it has only two dot-separated parts. -/
def get_current_version (p : PackageMeta) : String :=
  if (splitOnChar '.' p.version).length = 2 then p.version ++ ".0" else p.version

/-- Python `str(x)` where `x` is a value or `None`, as interpolated into
the engine's reason messages. -/
def optStr : Option String → String
  | some s => s
  | none => "None"

/-- Python `",".join(l)`. -/
def joinComma (l : List String) : String :=
  String.intercalate "," l

/-- Python `set(a) == set(b)`. -/
def listSetEq {α : Type} [DecidableEq α] (a b : List α) : Bool :=
  a.all (fun x => decide (x ∈ b)) && b.all (fun x => decide (x ∈ a))

/-- `del d["custom"]`: both documents are compared with the package-level
`custom` key removed. -/
def stripCustom (p : PackageMeta) : PackageMeta :=
  { p with custom := [] }

/-- The per-resource structural checks of `derive_bump_rule_from_change`
(lines 499-574): for each previous resource, in order — renamed/removed
resource, `_sheet_order` change, field-name set changes (removal; addition,
MINOR only when strictly appended), and (name, type) pair changes.  The
current resource is the first one with a matching name.  `major` is the
label the MAJOR rules return (rebound to `"MINOR"` below 1.0).  When the
field-name sets differ but the lengths are equal, neither length branch
returns and control falls through to the type check, exactly as in the
source.  (The join order of `set(prev) - set(cur)` in the removal message
is implementation-defined in Python; first-appearance order is used
here.) -/
def checkResourceStructure (major : String) (currentResources : List ResourceMeta) :
    List ResourceMeta → Option (String × String)
  | [] => none
  | pr :: rest =>
    match currentResources.filter (fun x => x.name = pr.name) with
    | [] => some (major, s!"Existing resource {optStr pr.title} renamed or deleted")
    | cr :: _ =>
      if pr.sheet_order ≠ cr.sheet_order then
        some (major, s!"Sheet order changed for resource {optStr pr.title}")
      else
        let previous_field_names := pr.fields.map FieldMeta.name
        let current_field_names := cr.fields.map FieldMeta.name
        let nameSetsDiffer := ¬ listSetEq previous_field_names current_field_names
        if nameSetsDiffer ∧ previous_field_names.length > current_field_names.length then
          let removed := joinComma
            (uniqueList (previous_field_names.filter (fun x => x ∉ current_field_names)))
          some (major, s!"Existing resource field(s) removed: {removed}")
        else if nameSetsDiffer ∧ previous_field_names.length < current_field_names.length then
          let new_fields := joinComma
            (current_field_names.filter (fun x => x ∉ previous_field_names))
          if current_field_names.take previous_field_names.length = previous_field_names then
            some ("MINOR", s!"New field(s) added to end of resource: {new_fields}")
          else
            some (major, s!"New field(s) added to resource: {new_fields}")
        else
          let old_field_name_and_type := pr.fields.map fun f => (f.name, f.ftype)
          let new_field_name_and_type := cr.fields.map fun f => (f.name, f.ftype)
          if ¬ listSetEq old_field_name_and_type new_field_name_and_type then
            let changed_types := joinComma
              ((new_field_name_and_type.filter
                (fun x => x ∉ old_field_name_and_type)).map Prod.fst)
            some (major, s!"Existing resource field(s) type changed: {changed_types}")
          else
            checkResourceStructure major currentResources rest

/-- Dictionary comprehension `{x["name"]: f(x) for x in resources}` looked
up at `n`: for duplicate names the last assignment wins. -/
def resourceDictGet {β : Type} (f : ResourceMeta → β) (resources : List ResourceMeta)
    (n : String) : Option β :=
  (resources.reverse.find? (fun r => r.name = n)).map f

/-- `[x for x in old if old[x] != new[x]]` over the keys of the old
dictionary, raising `KeyError` (as `.error`) when `x` is missing from the
new dictionary. -/
def collectDiffering {β : Type} [DecidableEq β] (old new : String → Option β) :
    List String → Except String (List String)
  | [] => .ok []
  | n :: rest =>
    match old n, new n with
    | some o, some c =>
      (collectDiffering old new rest).map fun l => if o ≠ c then n :: l else l
    | _, _ => .error s!"KeyError: {n}"

/-- The field-level descriptive check of the PATCH rules: for one
descriptive variable (`description` or `example`, projected by `get`),
walk the previous fields, find the first current field of the same name
(`[0]` on an empty match raises `IndexError`), and report the first
difference. -/
def checkFieldVariable (varName : String) (get : FieldMeta → Option String)
    (resName : String) (currentFields : List FieldMeta) :
    List FieldMeta → Except String (Option (String × String))
  | [] => .ok none
  | pf :: rest =>
    match currentFields.filter (fun x => x.name = pf.name) with
    | [] => .error "IndexError: list index out of range"
    | cf :: _ =>
      if get pf ≠ get cf then
        .ok (some ("PATCH",
          s!"{resName}: {varName} changed from {optStr (get pf)} to {optStr (get cf)}"))
      else
        checkFieldVariable varName get resName currentFields rest

/-- The resource-level descriptive checks of the PATCH rules
(lines 658-688): per previous resource, the `title`/`description`/
`keywords` variables in order, then the field-level `description` and
`example` variables (each variable scanned across all fields before the
next variable). -/
def checkResourceDescriptions (currentResources : List ResourceMeta) :
    List ResourceMeta → Except String (Option (String × String))
  | [] => .ok none
  | pr :: rest =>
    match currentResources.filter (fun x => x.name = pr.name) with
    | [] => .error "IndexError: list index out of range"
    | cr :: _ =>
      if pr.title ≠ cr.title then
        .ok (some ("PATCH",
          s!"{cr.name}: title changed from {optStr pr.title} to {optStr cr.title}"))
      else if pr.description ≠ cr.description then
        .ok (some ("PATCH",
          s!"{cr.name}: description changed from {optStr pr.description} to {optStr cr.description}"))
      else if pr.keywords ≠ cr.keywords then
        .ok (some ("PATCH",
          s!"{cr.name}: keywords changed from {optStr pr.keywords} to {optStr cr.keywords}"))
      else
        match checkFieldVariable "description" FieldMeta.description cr.name cr.fields pr.fields with
        | .error e => .error e
        | .ok (some r) => .ok (some r)
        | .ok none =>
          match checkFieldVariable "example" FieldMeta.fexample cr.name cr.fields pr.fields with
          | .error e => .error e
          | .ok (some r) => .ok (some r)
          | .ok none => checkResourceDescriptions currentResources rest

/-- The rule decision list of `derive_bump_rule_from_change` on the two
documents (both with `custom` already deleted), in source order: package
name, identifier, per-resource structural checks, license, resource count
(new resources), row counts, content hashes, package-level descriptive
variables, resource- and field-level descriptive variables.  `.ok none`
means no rule matched. -/
def classifyChange (major : String) (previous current : PackageMeta) :
    Except String (Option (String × String)) :=
  if previous.name ≠ current.name then
    .ok (some (major, "Datapackage name changed from \x7bp_name\x7d to \x7bc_name\x7d"))
  else if previous.identifier ≠ current.identifier then
    .ok (some (major, "Datapackage identifier changed from \x7bp_identifier\x7d to \x7bc_identifier\x7d"))
  else
    match checkResourceStructure major current.resources previous.resources with
    | some r => .ok (some r)
    | none =>
      if previous.licenses ≠ current.licenses then
        .ok (some (major,
          s!"License changed from {optStr previous.licenses} to {optStr current.licenses}"))
      else if previous.resources.length < current.resources.length then
        let new_resources := joinComma
          ((current.resources.filter (fun x => x ∉ previous.resources)).map ResourceMeta.name)
        .ok (some ("MINOR", s!"New resource(s) added: {new_resources}"))
      else
        match collectDiffering
            (resourceDictGet ResourceMeta.row_count previous.resources)
            (resourceDictGet ResourceMeta.row_count current.resources)
            (uniqueList (previous.resources.map ResourceMeta.name)) with
        | .error e => .error e
        | .ok different_counts =>
          if different_counts ≠ [] then
            .ok (some ("MINOR",
              s!"Change in data for resource(s): {joinComma different_counts}"))
          else
            match collectDiffering
                (resourceDictGet ResourceMeta.rhash previous.resources)
                (resourceDictGet ResourceMeta.rhash current.resources)
                (uniqueList (previous.resources.map ResourceMeta.name)) with
            | .error e => .error e
            | .ok different_hash_values =>
              if different_hash_values ≠ [] then
                .ok (some ("PATCH",
                  s!"Minor change in data for resource(s): {joinComma different_hash_values}"))
              else if previous.title ≠ current.title then
                .ok (some ("PATCH",
                  s!"title changed from '{optStr previous.title}' to '{optStr current.title}'"))
              else if previous.description ≠ current.description then
                .ok (some ("PATCH",
                  s!"description changed from '{optStr previous.description}' to '{optStr current.description}'"))
              else if previous.keywords ≠ current.keywords then
                .ok (some ("PATCH",
                  s!"keywords changed from '{optStr previous.keywords}' to '{optStr current.keywords}'"))
              else if previous.sources ≠ current.sources then
                .ok (some ("PATCH",
                  s!"sources changed from '{optStr previous.sources}' to '{optStr current.sources}'"))
              else if previous.contributors ≠ current.contributors then
                .ok (some ("PATCH",
                  s!"contributors changed from '{optStr previous.contributors}' to '{optStr current.contributors}'"))
              else
                checkResourceDescriptions current.resources previous.resources

/-- The MAJOR label after the pre-1.0 rebinding at the top of
`derive_bump_rule_from_change`: while the parsed major version is below 1
the name `MAJOR` is rebound to `"MINOR"`, once, before any rule runs. -/
def majorLabel (version : String) : String :=
  match parse_semver version with
  | some p => if toInt10 p.major < 1 then "MINOR" else "MAJOR"
  | none => "MAJOR"

/-- `DataPackage.derive_bump_rule_from_change`.  `snapshot` is the stored
package document under `versions/<current version>/` (`none` when that
directory does not exist); `current` is the live document.  Raised
`ValueError`s become `.error`; the implicit `return None` when no rule
matches and the stripped documents are equal becomes `.ok none`. -/
def derive_bump_rule_from_change (current : PackageMeta)
    (snapshot : Option PackageMeta) : Except String (Option (String × String)) :=
  let version := get_current_version current
  let major := majorLabel version
  match snapshot with
  | none =>
    if version = "0.1.0" then
      .ok (some ("INITIAL", "Don't need to increment, first version"))
    else
      .error s!"There is no {version} in the versions directory. Can't work out the change, specify new version name manually"
  | some previous =>
    match classifyChange major previous current with
    | .error e => .error e
    | .ok (some r) => .ok (some r)
    | .ok none =>
      if stripCustom current ≠ stripCustom previous then
        .error "There is a difference between the two files, not captured by the bump rule detection"
      else
        .ok none

/-! ## Version bump operations
(`bump_version_to`, `bump_version_on_rule`)

File-system effects are recorded as a list of write events:
`update_yaml` (the metadata document rewrite) is `metadataWrite`,
`store_version` (the `versions/<v>/` snapshot) is `snapshotWrite`, and the
publish pipeline (`rebuild_all_resources`/`build_package`/... ) is
`publishBuild`.  A raised exception is `.error` and performs no writes. -/

inductive FsWrite where
  | metadataWrite (version : String)
  | snapshotWrite (version : String)
  | publishBuild
deriving DecidableEq, Repr

/-- The prerelease format check `re.match(r"^[a-zA-Z0-9-]+$", prerelease)`. -/
def prereleaseFormatOk (p : String) : Bool :=
  !p.isEmpty && p.toList.all (fun c => c.isAlphanum || c = '-')

/-- `DataPackage.bump_version_to`.  `currentVersion` is
`get_current_version()` of the live package and `validationErrors` the
list `validate()` would return (its own file reads are collaborator
inputs).  In source order: strip a prerelease tag from the current
version, validate the prerelease argument and the new semver string
(raising before anything is written), then — only if the new version is
higher, or is the `0.1.0` reset, or finalizes the current prerelease —
validate the package (raising on any error), and only then write the
metadata document and the version snapshot (plus the publish pipeline when
requested).  A dry run, and a new version that fails the height check,
print a message and write nothing. -/
def bump_version_to (currentVersion : String) (validationErrors : List String)
    (new_semver update_message : String) (dry_run publish : Bool)
    (prerelease : String) : Except String (List FsWrite) :=
  let current_version_is_prerelease := strContainsChar '-' currentVersion
  let version :=
    if current_version_is_prerelease then (splitOnChar '-' currentVersion).headD ""
    else currentVersion
  if prerelease ≠ "" ∧ ¬ prereleaseFormatOk prerelease then
    .error "Prerelease must be ASCII alphanumerics and hyphens"
  else
    let new_semver := if prerelease ≠ "" then new_semver ++ "-" ++ prerelease else new_semver
    if ¬ is_valid_semver new_semver then
      .error s!"{new_semver} is not valid semver"
    else if semver_is_higher version new_semver = true ∨ new_semver = "0.1.0" ∨
        (current_version_is_prerelease ∧ version = new_semver) then
      if validationErrors ≠ [] then
        .error "Package is not valid, cannot update version."
      else if dry_run then
        .ok []
      else
        .ok ([FsWrite.metadataWrite new_semver, FsWrite.snapshotWrite new_semver] ++
          (if publish then [FsWrite.publishBuild] else []))
    else
      .ok []

/-- The tail of `bump_version_on_rule` once a concrete rule and message
are fixed: pick the new version (`INITIAL` and `STATIC` keep the current
one, otherwise `bump_version`, whose `ValueError` propagates), call
`bump_version_to`, and for `STATIC` with `publish` rerun the publish
pipeline afterwards. -/
def applyBumpRule (current_version : String) (validationErrors : List String)
    (rule update_message : String) (force_static dry_run publish : Bool) :
    Except String (List FsWrite) :=
  let newVersion : Except String String :=
    if rule = "INITIAL" then .ok current_version
    else if force_static then .ok current_version
    else bump_version current_version (pyLower rule)
  match newVersion with
  | .error e => .error e
  | .ok nv =>
    match bump_version_to current_version validationErrors nv update_message dry_run publish "" with
    | .error e => .error e
    | .ok ws =>
      .ok (ws ++ (if force_static ∧ publish then [FsWrite.publishBuild] else []))

/-- `DataPackage.bump_version_on_rule`.  For `AUTO`/`STATIC` the rule is
inferred by `derive_bump_rule_from_change` (its exceptions propagate; an
inference of "no change" prints and returns with no writes); an inferred
rule named in `auto_ban` raises before anything is written.  An empty
caller message is replaced by the inference's reason. -/
def bump_version_on_rule (current : PackageMeta) (snapshot : Option PackageMeta)
    (validationErrors : List String) (bump_rule update_message : String)
    (dry_run : Bool) (auto_ban : List String) (publish : Bool) :
    Except String (List FsWrite) :=
  if bump_rule ∉ ["MAJOR", "MINOR", "PATCH", "INITIAL", "AUTO", "STATIC"] then
    .error s!"{bump_rule} is not a valid bump_rule"
  else
    let current_version := get_current_version current
    let force_static := bump_rule = "STATIC"
    if bump_rule = "AUTO" ∨ bump_rule = "STATIC" then
      match derive_bump_rule_from_change current snapshot with
      | .error e => .error e
      | .ok none => .ok []
      | .ok (some (rule, auto_update_message)) =>
        if rule ∈ auto_ban then
          .error s!"The change caused by {update_message} is a {rule} change, which is banned by the auto-ban rule."
        else
          let msg := if update_message = "" then auto_update_message else update_message
          applyBumpRule current_version validationErrors rule msg force_static dry_run publish
    else
      applyBumpRule current_version validationErrors bump_rule update_message
        force_static dry_run publish

/-! ## `map_versions_to_latest_major_minor` (`version_management.py`, lines 4-21) -/

/-- `x.split(".")` followed by the three-way unpacking `int` conversion of
one version string; `none` when the string does not have exactly three
integer parts (where Python would raise). -/
def toTriple (s : String) : Option (Nat × Nat × Nat) :=
  match splitOnChar '.' s with
  | [a, b, c] =>
    match digitsToNat? a, digitsToNat? b, digitsToNat? c with
    | some x, some y, some z => some (x, y, z)
    | _, _, _ => none
  | _ => none

/-- Python tuple comparison on the numeric triples (lexicographic). -/
def tripleLe (a b : Nat × Nat × Nat) : Prop :=
  a.1 < b.1 ∨ (a.1 = b.1 ∧ (a.2.1 < b.2.1 ∨ (a.2.1 = b.2.1 ∧ a.2.2 ≤ b.2.2)))

instance : DecidableRel tripleLe := fun a b => by
  unfold tripleLe; infer_instance

instance : IsTotal (Nat × Nat × Nat) tripleLe :=
  ⟨by intro a b; unfold tripleLe; omega⟩

instance : IsTrans (Nat × Nat × Nat) tripleLe :=
  ⟨by intro a b c; unfold tripleLe; omega⟩

instance : IsRefl (Nat × Nat × Nat) tripleLe :=
  ⟨by intro a; unfold tripleLe; omega⟩

/-- `f"{major}.{minor}.{patch}"` / `".".join(str(x) for x in triple)`. -/
def tripleStr (t : Nat × Nat × Nat) : String :=
  match t with
  | (a, b, c) => String.intercalate "." [toString a, toString b, toString c]

/-- `map_versions_to_latest_major_minor`: parse every version into an int
triple (a malformed string raises), sort ascending, and fill an
insertion-ordered dict mapping `"major.minor"` and `"major"` to the
latest matching full version, plus `"latest"` mapping to the overall
highest (`split_versions[-1]`, an `IndexError` on an empty list).  The
`include_latest` parameter is never read. -/
def map_versions_to_latest_major_minor (versions : List String)
    (include_latest : Bool) : Except String (List (String × String)) :=
  match versions.mapM toTriple with
  | none => .error "invalid literal for int()"
  | some split_versions =>
    let sorted := List.insertionSort tripleLe split_versions
    match sorted.getLast? with
    | none => .error "IndexError: list index out of range"
    | some last =>
      let version_map := sorted.foldl
        (fun d t =>
          match t with
          | (major, minor, patch) =>
            dictSet (dictSet d s!"{major}.{minor}" (tripleStr (major, minor, patch)))
              (toString major) (tripleStr (major, minor, patch)))
        []
      .ok (dictSet version_map "latest" (tripleStr last))

/-! ## Concrete package states used as test inputs -/

/-- A schema field named `n`, of type string, with a description and an
example. -/
def exampleField (n : String) : FieldMeta :=
  ⟨n, "string", some "a field", some "x"⟩

/-- A resource whose fields are `[a, b, c]` in that order. -/
def resourceABC : ResourceMeta :=
  ⟨"res", some "Resource", some "a resource", none, none,
    [exampleField "a", exampleField "b", exampleField "c"], 10, "h1"⟩

/-- The same resource with the same fields reordered to `[a, c, b]`
(identical names, types, descriptions and examples). -/
def resourceACB : ResourceMeta :=
  { resourceABC with fields := [exampleField "a", exampleField "c", exampleField "b"] }

/-- A package snapshot at version `1.0.0` holding `resourceABC`. -/
def packagePrevC1 : PackageMeta :=
  ⟨some "pkg", none, "1.0.0", some "MIT", some "Title", some "Desc",
    none, none, none, [resourceABC], []⟩

/-- The live package: identical to `packagePrevC1` except that the
resource's field list is reordered. -/
def packageCurrC1 : PackageMeta :=
  { packagePrevC1 with resources := [resourceACB] }

/-- The bump operation performed no file writes: it either raised or
returned with an empty write trace. -/
def performsNoWrites (r : Except String (List FsWrite)) : Prop :=
  ∀ ws, r = .ok ws → ws = []

/-- A package snapshot at `1.0.0` with a package-level `custom` entry. -/
def packagePrevC2 : PackageMeta :=
  ⟨some "pkg", none, "1.0.0", some "MIT", some "Title", some "Desc",
    none, none, none, [resourceABC], [("change_log", "old message")]⟩

/-- The live package: identical to `packagePrevC2` except in the
package-level `custom` dictionary. -/
def packageCurrC2 : PackageMeta :=
  { packagePrevC2 with custom := [("change_log", "new message")] }

/-- The live package: identical to `packagePrevC2` except that the
resource's content hash changed (row count unchanged), so the engine
infers PATCH. -/
def packageCurrC3 : PackageMeta :=
  { packagePrevC2 with resources := [{ resourceABC with rhash := "h2" }] }

/-! # Theorems -/

/-- C4: the Schema Inferencer attaches an enum exactly for columns with
fewer than 15 distinct values and no missing values — refuted on the code:
`safe_unique` applies `isnull` to the series AFTER `.apply(str)`, where it
is identically false, so a column containing a missing value still
receives an enum constraint.  Witnessed on a one-column table whose column
has a missing value and 2 distinct `str` forms: the claim requires no
`enum` key, the code attaches `enum = ["a"]`. -/
theorem enum_attached_despite_missing_value :
    safe_unique [some "a", none] = true ∧
    update_table_schema (fun _ => "string") [("c", [some "a", none])] none =
      [{ name := "c", ftype := "string", fexample := "a", description := none,
         constraints_unique := true, constraints_enum := some ["a"] }] := by
  constructor
  · rfl
  · rfl

/-- C5 counterexample: `bump_version(a, "patch")` does NOT leave every
non-patch component of `a` unchanged: on `1.2.3-alpha` (prerelease
component `alpha`) the result is `1.2.4`, whose prerelease component is
gone. -/
theorem bump_patch_drops_prerelease :
    (parse_semver "1.2.3-alpha").map SemverParts.prerelease = some (some "alpha") ∧
    bump_version "1.2.3-alpha" "patch" = .ok "1.2.4" ∧
    (parse_semver "1.2.4").map SemverParts.prerelease = some none := by
  refine ⟨rfl, rfl, rfl⟩

/-- C5 amended: for every valid semver string `a`, `bump_version(a,
"major")` yields `(major(a)+1).0.0`, `bump_version(a, "minor")` yields
`major(a).(minor(a)+1).0`, and `bump_version(a, "patch")` yields
`major(a).minor(a).(patch(a)+1)`; in every case the result carries only
the numeric triple — prerelease and build metadata of `a` are dropped. -/
theorem bump_version_components (a : String) (p : SemverParts)
    (h : parse_semver a = some p) :
    bump_version a "major" =
      .ok (String.intercalate "." [toString (toInt10 p.major + 1), "0", "0"]) ∧
    bump_version a "minor" =
      .ok (String.intercalate "." [p.major, toString (toInt10 p.minor + 1), "0"]) ∧
    bump_version a "patch" =
      .ok (String.intercalate "." [p.major, p.minor, toString (toInt10 p.patch + 1)]) := by
  refine ⟨?_, ?_, ?_⟩ <;> simp [bump_version, h]

/-- C5 amended, witness at `1.2.3`. -/
theorem bump_version_components_witness :
    bump_version "1.2.3" "major" = .ok "2.0.0" ∧
    bump_version "1.2.3" "minor" = .ok "1.3.0" ∧
    bump_version "1.2.3" "patch" = .ok "1.2.4" :=
  bump_version_components "1.2.3" ⟨"1", "2", "3", none, none⟩ rfl

/-- C7: with no stored snapshot for the current version,
`derive_bump_rule_from_change` returns INITIAL exactly when the current
version is `0.1.0`, and raises for any other version. -/
theorem derive_no_snapshot (current : PackageMeta) :
    (get_current_version current = "0.1.0" →
      derive_bump_rule_from_change current none =
        .ok (some ("INITIAL", "Don't need to increment, first version"))) ∧
    (get_current_version current ≠ "0.1.0" →
      ∃ e, derive_bump_rule_from_change current none = .error e) := by
  constructor
  · intro h
    simp [derive_bump_rule_from_change, h]
  · intro h
    refine ⟨s!"There is no {get_current_version current} in the versions directory. Can't work out the change, specify new version name manually", ?_⟩
    simp [derive_bump_rule_from_change, h]

/-- C7 witness: a package at version `0.1.0` with no snapshot is INITIAL;
one at `1.0.0` with no snapshot raises. -/
theorem derive_no_snapshot_witness :
    derive_bump_rule_from_change
      ⟨none, none, "0.1.0", none, none, none, none, none, none, [], []⟩ none =
      .ok (some ("INITIAL", "Don't need to increment, first version")) ∧
    ∃ e, derive_bump_rule_from_change
      ⟨none, none, "1.0.0", none, none, none, none, none, none, [], []⟩ none = .error e :=
  ⟨(derive_no_snapshot _).1 rfl, (derive_no_snapshot _).2 (by decide)⟩

/-- C6: for valid semver strings `a` and `b`, `semver_is_higher a b` is
true exactly when the numeric (major, minor, patch) triple of `b` is
lexicographically strictly greater than that of `a` — determined by the
triples alone, so prerelease and build metadata are ignored — and
`semver_is_higher a a` is false for every string `a`. -/
theorem semver_is_higher_iff_lex (a b : String) (pa pb : SemverParts)
    (ha : parse_semver a = some pa) (hb : parse_semver b = some pb) :
    (semver_is_higher a b = true ↔
      (toInt10 pb.major > toInt10 pa.major ∨
        (toInt10 pb.major = toInt10 pa.major ∧ toInt10 pb.minor > toInt10 pa.minor) ∨
        (toInt10 pb.major = toInt10 pa.major ∧ toInt10 pb.minor = toInt10 pa.minor ∧
          toInt10 pb.patch > toInt10 pa.patch))) ∧
    semver_is_higher a a = false := by
  constructor
  · unfold semver_is_higher
    rw [ha, hb]
    dsimp only
    split_ifs with h1 h2 h3 <;> simp_all
  · unfold semver_is_higher
    rw [ha]
    dsimp only
    split_ifs with h1 h2 h3 <;> simp_all

/-- C6 witness at `1.2.3` / `1.3.0`. -/
theorem semver_is_higher_iff_lex_witness :
    semver_is_higher "1.2.3" "1.3.0" = true ∧
    semver_is_higher "1.2.3" "1.2.3" = false := by
  have h := semver_is_higher_iff_lex "1.2.3" "1.3.0"
    ⟨"1", "2", "3", none, none⟩ ⟨"1", "3", "0", none, none⟩ rfl rfl
  exact ⟨h.1.mpr (by right; left; exact ⟨rfl, by decide⟩), h.2⟩

/-- C1: a pure reorder of an existing resource's field list (same names,
same types) at major version ≥ 1 is claimed to classify as MAJOR — refuted
on the code: the engine compares field names and (name, type) pairs as
SETS, which a reorder leaves equal, so no rule matches and the final
document comparison raises the rule-exhaustion `ValueError` instead of
returning MAJOR.  Evaluated on previous fields `[a,b,c]` and current
fields `[a,c,b]` at version `1.0.0`. -/
theorem field_reorder_raises_not_major :
    derive_bump_rule_from_change packageCurrC1 (some packagePrevC1) =
      .error "There is a difference between the two files, not captured by the bump rule detection" :=
  rfl

/-- C2 counterexample: the claim says "no rule matches → returns None
exactly when the two full metadata documents are identical, raises
whenever they are not".  But both documents have their package-level
`custom` key deleted before the final comparison, so two documents that
differ only inside `custom` make the engine return None even though the
full documents are not identical. -/
theorem custom_only_change_returns_none :
    derive_bump_rule_from_change packageCurrC2 (some packagePrevC2) = .ok none ∧
    packageCurrC2 ≠ packagePrevC2 := by
  exact ⟨rfl, by decide⟩

/-- C2 amended: when no classification rule of the decision list matches,
`derive_bump_rule_from_change` returns None exactly when the two metadata
documents are identical after the package-level `custom` key is deleted
from both, and raises whenever they differ outside `custom`. -/
theorem no_rule_match_compares_stripped (current previous : PackageMeta)
    (h : classifyChange (majorLabel (get_current_version current)) previous current = .ok none) :
    derive_bump_rule_from_change current (some previous) =
      (if stripCustom current = stripCustom previous then .ok none
       else .error "There is a difference between the two files, not captured by the bump rule detection") := by
  unfold derive_bump_rule_from_change
  dsimp only
  rw [h]
  split_ifs <;> tauto

/-- C2 amended, witness: a package diffed against an identical snapshot
returns None. -/
theorem no_rule_match_compares_stripped_witness :
    derive_bump_rule_from_change packagePrevC2 (some packagePrevC2) = .ok none := by
  have h := no_rule_match_compares_stripped packagePrevC2 packagePrevC2 rfl
  rw [if_pos rfl] at h
  exact h

/-- C3: every bump precondition failure is fatal before any file is
written.  (1) An invalid new semver string raises and nothing is written;
(2) a new version that is not higher than the current one, is not the
`0.1.0` reset, and does not finalize a current prerelease, aborts with
nothing written; (3) validation errors make the bump write nothing, and
raise whenever control reaches the validation check (the prerelease
argument and semver string are well formed and the height check passed);
(4) an auto-banned inferred rule makes `bump_version_on_rule` raise, so
nothing is written. -/
theorem bump_precondition_failures_are_fatal
    (currentVersion : String) (validationErrors : List String)
    (new_semver update_message : String) (dry_run publish : Bool) (prerelease : String)
    (current : PackageMeta) (snapshot : Option PackageMeta)
    (bump_rule rule msg : String) (auto_ban : List String) :
    (is_valid_semver (if prerelease ≠ "" then new_semver ++ "-" ++ prerelease else new_semver) = false →
      (∃ e, bump_version_to currentVersion validationErrors new_semver update_message
        dry_run publish prerelease = .error e) ∧
      performsNoWrites (bump_version_to currentVersion validationErrors new_semver
        update_message dry_run publish prerelease)) ∧
    (¬ (semver_is_higher
          (if strContainsChar '-' currentVersion then (splitOnChar '-' currentVersion).headD ""
           else currentVersion)
          (if prerelease ≠ "" then new_semver ++ "-" ++ prerelease else new_semver) = true ∨
        (if prerelease ≠ "" then new_semver ++ "-" ++ prerelease else new_semver) = "0.1.0" ∨
        (strContainsChar '-' currentVersion ∧
          (if strContainsChar '-' currentVersion then (splitOnChar '-' currentVersion).headD ""
           else currentVersion) =
            (if prerelease ≠ "" then new_semver ++ "-" ++ prerelease else new_semver))) →
      performsNoWrites (bump_version_to currentVersion validationErrors new_semver
        update_message dry_run publish prerelease)) ∧
    (validationErrors ≠ [] →
      performsNoWrites (bump_version_to currentVersion validationErrors new_semver
        update_message dry_run publish prerelease) ∧
      (¬ (prerelease ≠ "" ∧ ¬ prereleaseFormatOk prerelease = true) →
        is_valid_semver (if prerelease ≠ "" then new_semver ++ "-" ++ prerelease else new_semver) = true →
        (semver_is_higher
            (if strContainsChar '-' currentVersion then (splitOnChar '-' currentVersion).headD ""
             else currentVersion)
            (if prerelease ≠ "" then new_semver ++ "-" ++ prerelease else new_semver) = true ∨
          (if prerelease ≠ "" then new_semver ++ "-" ++ prerelease else new_semver) = "0.1.0" ∨
          (strContainsChar '-' currentVersion ∧
            (if strContainsChar '-' currentVersion then (splitOnChar '-' currentVersion).headD ""
             else currentVersion) =
              (if prerelease ≠ "" then new_semver ++ "-" ++ prerelease else new_semver))) →
        bump_version_to currentVersion validationErrors new_semver update_message
          dry_run publish prerelease = .error "Package is not valid, cannot update version.")) ∧
    ((bump_rule = "AUTO" ∨ bump_rule = "STATIC") →
      derive_bump_rule_from_change current snapshot = .ok (some (rule, msg)) →
      rule ∈ auto_ban →
      ∃ e, bump_version_on_rule current snapshot validationErrors bump_rule update_message
        dry_run auto_ban publish = .error e) := by
  refine ⟨?_, ?_, ?_, ?_⟩
  · intro h
    unfold bump_version_to
    dsimp only
    by_cases h1 : (prerelease ≠ "" ∧ ¬ prereleaseFormatOk prerelease = true)
    · rw [if_pos h1]
      exact ⟨⟨_, rfl⟩, fun ws hws => by simp at hws⟩
    · rw [if_neg h1]
      rw [if_pos (show ¬ is_valid_semver
        (if prerelease ≠ "" then new_semver ++ "-" ++ prerelease else new_semver) = true from
          fun hc => by rw [h] at hc; exact Bool.noConfusion hc)]
      exact ⟨⟨_, rfl⟩, fun ws hws => by simp at hws⟩
  · intro h
    intro ws hws
    unfold bump_version_to at hws
    dsimp only at hws
    by_cases h1 : (prerelease ≠ "" ∧ ¬ prereleaseFormatOk prerelease = true)
    · rw [if_pos h1] at hws
      simp at hws
    · rw [if_neg h1] at hws
      by_cases h2 : ¬ is_valid_semver
          (if prerelease ≠ "" then new_semver ++ "-" ++ prerelease else new_semver) = true
      · rw [if_pos h2] at hws
        simp at hws
      · rw [if_neg h2, if_neg h] at hws
        injection hws with h3
        exact h3.symm
  · intro h
    constructor
    · intro ws hws
      unfold bump_version_to at hws
      dsimp only at hws
      by_cases h1 : (prerelease ≠ "" ∧ ¬ prereleaseFormatOk prerelease = true)
      · rw [if_pos h1] at hws
        simp at hws
      · rw [if_neg h1] at hws
        by_cases h2 : ¬ is_valid_semver
            (if prerelease ≠ "" then new_semver ++ "-" ++ prerelease else new_semver) = true
        · rw [if_pos h2] at hws
          simp at hws
        · rw [if_neg h2] at hws
          by_cases h3 : (semver_is_higher
                (if strContainsChar '-' currentVersion then (splitOnChar '-' currentVersion).headD ""
                 else currentVersion)
                (if prerelease ≠ "" then new_semver ++ "-" ++ prerelease else new_semver) = true ∨
              (if prerelease ≠ "" then new_semver ++ "-" ++ prerelease else new_semver) = "0.1.0" ∨
              (strContainsChar '-' currentVersion ∧
                (if strContainsChar '-' currentVersion then (splitOnChar '-' currentVersion).headD ""
                 else currentVersion) =
                  (if prerelease ≠ "" then new_semver ++ "-" ++ prerelease else new_semver)))
          · rw [if_pos h3, if_pos h] at hws
            simp at hws
          · rw [if_neg h3] at hws
            injection hws with h4
            exact h4.symm
    · intro hpre hval hC
      unfold bump_version_to
      dsimp only
      rw [if_neg hpre]
      rw [if_neg (show ¬ ¬ is_valid_semver
        (if prerelease ≠ "" then new_semver ++ "-" ++ prerelease else new_semver) = true from
          fun hc => hc hval)]
      rw [if_pos hC, if_pos h]
  · intro hb hd hban
    unfold bump_version_on_rule
    have hmem : ¬ bump_rule ∉ ["MAJOR", "MINOR", "PATCH", "INITIAL", "AUTO", "STATIC"] := by
      rcases hb with hb | hb <;> subst hb <;> decide
    rw [if_neg hmem]
    dsimp only
    have hb' : (bump_rule = "AUTO" ∨ bump_rule = "STATIC") := hb
    rw [if_pos hb', hd]
    dsimp only
    rw [if_pos hban]
    exact ⟨_, rfl⟩

/-- C3 witness: each precondition failure evaluated at a concrete call —
an invalid semver string raises; a non-higher target writes nothing; a
validation error raises before writing; an auto-banned inferred PATCH
raises. -/
theorem bump_precondition_failures_are_fatal_witness :
    (∃ e, bump_version_to "1.0.0" [] "abc" "m" false false "" = .error e) ∧
    performsNoWrites (bump_version_to "1.0.0" [] "0.9.0" "m" false false "") ∧
    bump_version_to "1.0.0" ["Missing package title"] "1.1.0" "m" false false "" =
      .error "Package is not valid, cannot update version." ∧
    (∃ e, bump_version_on_rule packageCurrC3 (some packagePrevC2) [] "AUTO" "m"
      false ["PATCH"] false = .error e) := by
  refine ⟨?_, ?_, ?_, ?_⟩
  · exact ((bump_precondition_failures_are_fatal "1.0.0" [] "abc" "m" false false ""
      packageCurrC3 none "AUTO" "PATCH" "x" []).1 (by decide)).1
  · exact (bump_precondition_failures_are_fatal "1.0.0" [] "0.9.0" "m" false false ""
      packageCurrC3 none "AUTO" "PATCH" "x" []).2.1 (by decide)
  · exact ((bump_precondition_failures_are_fatal "1.0.0" ["Missing package title"]
      "1.1.0" "m" false false "" packageCurrC3 none "AUTO" "PATCH" "x" []).2.2.1
      (by decide)).2 (by decide) (by decide) (by decide)
  · exact (bump_precondition_failures_are_fatal "1.0.0" [] "1.1.0" "m" false false ""
      packageCurrC3 (some packagePrevC2) "AUTO" "PATCH"
      "Minor change in data for resource(s): res" ["PATCH"]).2.2.2
      (Or.inl rfl) (by rfl) (by decide)

/-- Every classification returned by the per-resource structural checks
carries either the (possibly rebound) MAJOR label or the literal
`"MINOR"`. -/
theorem checkResourceStructure_label (major : String) (cur : List ResourceMeta) :
    ∀ prs r m, checkResourceStructure major cur prs = some (r, m) →
      r = major ∨ r = "MINOR" := by
  intro prs
  induction prs with
  | nil =>
    intro r m h
    simp [checkResourceStructure] at h
  | cons pr rest ih =>
    intro r m h
    unfold checkResourceStructure at h
    cases hf : cur.filter (fun x => x.name = pr.name) with
    | nil =>
      rw [hf] at h
      dsimp only at h
      injection h with h1
      cases h1
      exact Or.inl rfl
    | cons cr tl =>
      rw [hf] at h
      dsimp only at h
      split_ifs at h
      all_goals
        first
        | exact ih r m h
        | (injection h with h1; cases h1; exact Or.inl rfl)
        | (injection h with h1; cases h1; exact Or.inr rfl)

/-- Every classification returned by the field-level descriptive check is
a PATCH. -/
theorem checkFieldVariable_label (varName : String) (get : FieldMeta → Option String)
    (resName : String) (curFields : List FieldMeta) :
    ∀ pfs r m, checkFieldVariable varName get resName curFields pfs = .ok (some (r, m)) →
      r = "PATCH" := by
  intro pfs
  induction pfs with
  | nil =>
    intro r m h
    simp [checkFieldVariable] at h
  | cons pf rest ih =>
    intro r m h
    unfold checkFieldVariable at h
    cases hf : curFields.filter (fun x => x.name = pf.name) with
    | nil =>
      rw [hf] at h
      dsimp only at h
      exact absurd h (by simp)
    | cons cf tl =>
      rw [hf] at h
      dsimp only at h
      split_ifs at h
      · injection h with h1
        injection h1 with h2
        cases h2
        rfl
      · exact ih r m h

/-- Every classification returned by the resource-level descriptive
checks is a PATCH. -/
theorem checkResourceDescriptions_label (cur : List ResourceMeta) :
    ∀ prs r m, checkResourceDescriptions cur prs = .ok (some (r, m)) →
      r = "PATCH" := by
  intro prs
  induction prs with
  | nil =>
    intro r m h
    simp [checkResourceDescriptions] at h
  | cons pr rest ih =>
    intro r m h
    unfold checkResourceDescriptions at h
    cases hf : cur.filter (fun x => x.name = pr.name) with
    | nil =>
      rw [hf] at h
      dsimp only at h
      exact absurd h (by simp)
    | cons cr tl =>
      rw [hf] at h
      dsimp only at h
      split_ifs at h
      · injection h with h1; injection h1 with h2; cases h2; rfl
      · injection h with h1; injection h1 with h2; cases h2; rfl
      · injection h with h1; injection h1 with h2; cases h2; rfl
      · cases hd : checkFieldVariable "description" FieldMeta.description cr.name cr.fields pr.fields with
        | error e =>
          rw [hd] at h
          exact absurd h (by simp)
        | ok o =>
          rw [hd] at h
          cases o with
          | some rr =>
            dsimp only at h
            injection h with h1
            injection h1 with h2
            cases h2
            exact checkFieldVariable_label _ _ _ _ pr.fields _ _ hd
          | none =>
            dsimp only at h
            cases he : checkFieldVariable "example" FieldMeta.fexample cr.name cr.fields pr.fields with
            | error e =>
              rw [he] at h
              exact absurd h (by simp)
            | ok o2 =>
              rw [he] at h
              cases o2 with
              | some rr =>
                dsimp only at h
                injection h with h1
                injection h1 with h2
                cases h2
                exact checkFieldVariable_label _ _ _ _ pr.fields _ _ he
              | none =>
                dsimp only at h
                exact ih r m h

/-- Every classification produced by the rule decision list carries the
(possibly rebound) MAJOR label, `"MINOR"`, or `"PATCH"`. -/
theorem classifyChange_label (major : String) (previous current : PackageMeta)
    (r m : String) (h : classifyChange major previous current = .ok (some (r, m))) :
    r = major ∨ r = "MINOR" ∨ r = "PATCH" := by
  unfold classifyChange at h
  by_cases h1 : previous.name ≠ current.name
  · rw [if_pos h1] at h
    injection h with h1'; injection h1' with h2'; cases h2'; exact Or.inl rfl
  · rw [if_neg h1] at h
    by_cases h2 : previous.identifier ≠ current.identifier
    · rw [if_pos h2] at h
      injection h with h1'; injection h1' with h2'; cases h2'; exact Or.inl rfl
    · rw [if_neg h2] at h
      cases hs : checkResourceStructure major current.resources previous.resources with
      | some rr =>
        rw [hs] at h
        dsimp only at h
        injection h with h1'
        injection h1' with h2'
        cases h2'
        rcases checkResourceStructure_label major current.resources previous.resources _ _ hs with
          h3 | h3
        · exact Or.inl h3
        · exact Or.inr (Or.inl h3)
      | none =>
        rw [hs] at h
        dsimp only at h
        by_cases h3 : previous.licenses ≠ current.licenses
        · rw [if_pos h3] at h
          injection h with h1'; injection h1' with h2'; cases h2'; exact Or.inl rfl
        · rw [if_neg h3] at h
          by_cases h4 : previous.resources.length < current.resources.length
          · rw [if_pos h4] at h
            injection h with h1'; injection h1' with h2'; cases h2'
            exact Or.inr (Or.inl rfl)
          · rw [if_neg h4] at h
            cases hc : collectDiffering
                (resourceDictGet ResourceMeta.row_count previous.resources)
                (resourceDictGet ResourceMeta.row_count current.resources)
                (uniqueList (previous.resources.map ResourceMeta.name)) with
            | error e =>
              rw [hc] at h
              exact absurd h (by simp)
            | ok counts =>
              rw [hc] at h
              dsimp only at h
              by_cases h5 : counts ≠ []
              · rw [if_pos h5] at h
                injection h with h1'; injection h1' with h2'; cases h2'
                exact Or.inr (Or.inl rfl)
              · rw [if_neg h5] at h
                cases hh : collectDiffering
                    (resourceDictGet ResourceMeta.rhash previous.resources)
                    (resourceDictGet ResourceMeta.rhash current.resources)
                    (uniqueList (previous.resources.map ResourceMeta.name)) with
                | error e =>
                  rw [hh] at h
                  exact absurd h (by simp)
                | ok hashes =>
                  rw [hh] at h
                  dsimp only at h
                  split_ifs at h
                  all_goals
                    first
                    | (injection h with h1'; injection h1' with h2'; cases h2';
                        exact Or.inr (Or.inr rfl))
                    | exact Or.inr (Or.inr
                        (checkResourceDescriptions_label current.resources
                          previous.resources r m h))

/-- C8: while the package's current major version is 0, the MAJOR label
is rebound to MINOR once, up front, before the rule list is evaluated
(first conjunct: `majorLabel` — the label every MAJOR rule returns — is
the string `"MINOR"`), and consequently `derive_bump_rule_from_change`
can never return a MAJOR classification (second conjunct). -/
theorem pre1_major_downgraded_to_minor (current : PackageMeta)
    (snapshot : Option PackageMeta) (p : SemverParts)
    (hp : parse_semver (get_current_version current) = some p)
    (hmaj : toInt10 p.major = 0) :
    majorLabel (get_current_version current) = "MINOR" ∧
    (∀ r m, derive_bump_rule_from_change current snapshot = .ok (some (r, m)) →
      r ≠ "MAJOR") := by
  have hlab : majorLabel (get_current_version current) = "MINOR" := by
    unfold majorLabel
    rw [hp]
    dsimp only
    rw [if_pos (by omega)]
  refine ⟨hlab, ?_⟩
  intro r m h
  unfold derive_bump_rule_from_change at h
  dsimp only at h
  cases snapshot with
  | none =>
    dsimp only at h
    split_ifs at h
    injection h with h1'
    injection h1' with h2'
    cases h2'
    decide
  | some previous =>
    dsimp only at h
    cases hc : classifyChange (majorLabel (get_current_version current)) previous current with
    | error e =>
      rw [hc] at h
      exact absurd h (by simp)
    | ok o =>
      rw [hc] at h
      cases o with
      | some rr =>
        dsimp only at h
        injection h with h1'
        injection h1' with h2'
        cases h2'
        rcases classifyChange_label _ previous current _ _ hc with h3 | h3 | h3
        · rw [hlab] at h3
          subst h3
          decide
        · subst h3; decide
        · subst h3; decide
      | none =>
        dsimp only at h
        split_ifs at h
        simp at h

/-- C8 witness: a pre-1.0 package (version `0.5.0`) whose license changed
— a MAJOR condition — is classified MINOR. -/
theorem pre1_major_downgraded_to_minor_witness :
    majorLabel (get_current_version
      { packagePrevC2 with version := "0.5.0" }) = "MINOR" ∧
    (∀ r m,
      derive_bump_rule_from_change { packagePrevC2 with version := "0.5.0" }
        (some { packagePrevC2 with version := "0.5.0", licenses := some "CC" }) =
        .ok (some (r, m)) → r ≠ "MAJOR") :=
  pre1_major_downgraded_to_minor _ _ ⟨"0", "5", "0", none, none⟩ rfl rfl

/-- Setting a key makes it look up to the set value. -/
theorem dictSet_lookup_self {β : Type} (d : List (String × β)) (k : String) (v : β) :
    (dictSet d k v).lookup k = some v := by
  induction d with
  | nil => simp [dictSet, List.lookup]
  | cons p d ih =>
    obtain ⟨k', v'⟩ := p
    unfold dictSet
    by_cases hk : k' = k
    · subst hk
      rw [if_pos rfl]
      simp [List.lookup]
    · rw [if_neg hk]
      have hbeq : (k == k') = false := beq_false_of_ne (Ne.symm hk)
      simp only [List.lookup, hbeq]
      exact ih

/-- In a `tripleLe`-sorted list every element is `tripleLe` the last
element. -/
theorem sorted_le_getLast :
    ∀ (l : List (Nat × Nat × Nat)), List.Sorted tripleLe l →
      ∀ x ∈ l, ∀ b, l.getLast? = some b → tripleLe x b := by
  intro l
  induction l with
  | nil => intro _ x hx; cases hx
  | cons a t ih =>
    intro hs x hx b hb
    cases t with
    | nil =>
      simp at hx hb
      subst hx
      subst hb
      unfold tripleLe
      omega
    | cons c t' =>
      rw [List.getLast?_cons_cons] at hb
      rcases List.mem_cons.mp hx with rfl | hx'
      · have hbmem : b ∈ c :: t' := by
          have h2 := List.getLast?_eq_getLast_of_ne_nil (l := c :: t') (by simp)
          rw [h2] at hb
          injection hb with hb'
          rw [← hb']
          exact List.getLast_mem _
        exact (List.sorted_cons.mp hs).1 b hbmem
      · exact ih (List.sorted_cons.mp hs).2 x hx' b hb

/-- Auxiliary: `List.mapM` over `Option` preserves length (stated on the
accumulator loop). -/
theorem mapM_loop_length :
    ∀ (as : List String) (acc ts : List (Nat × Nat × Nat)),
      List.mapM.loop toTriple as acc = some ts → ts.length = as.length + acc.length := by
  intro as
  induction as with
  | nil =>
    intro acc ts h
    simp [List.mapM.loop] at h
    rw [← h]
    simp
  | cons a as ih =>
    intro acc ts h
    unfold List.mapM.loop at h
    cases hta : toTriple a with
    | none =>
      rw [hta] at h
      simp at h
    | some b =>
      rw [hta] at h
      simp only [Option.bind_eq_bind, Option.some_bind] at h
      have := ih (b :: acc) ts h
      simp only [List.length_cons] at this ⊢
      omega

/-- C10: for every non-empty list of well-formed three-part version
strings and either value of `include_latest`,
`map_versions_to_latest_major_minor` succeeds, its result is independent
of `include_latest` (the parameter is never read), and the result always
binds the key `"latest"` to the numerically (lexicographically) highest
(major, minor, patch) version of the input. -/
theorem map_versions_latest (versions : List String) (triples : List (Nat × Nat × Nat))
    (hne : versions ≠ [])
    (hparse : versions.mapM toTriple = some triples) :
    (∀ b1 b2 : Bool, map_versions_to_latest_major_minor versions b1 =
      map_versions_to_latest_major_minor versions b2) ∧
    (∃ best d, map_versions_to_latest_major_minor versions false = .ok d ∧
      d.lookup "latest" = some (tripleStr best) ∧ best ∈ triples ∧
      ∀ t ∈ triples, tripleLe t best) := by
  have htne : triples ≠ [] := by
    have hlen := mapM_loop_length versions [] triples (by simpa [List.mapM] using hparse)
    intro h0
    rw [h0] at hlen
    cases versions with
    | nil => exact hne rfl
    | cons v vs => simp at hlen
  refine ⟨fun b1 b2 => rfl, ?_⟩
  unfold map_versions_to_latest_major_minor
  rw [hparse]
  dsimp only
  have hperm := List.perm_insertionSort tripleLe triples
  have hsne : List.insertionSort tripleLe triples ≠ [] := by
    intro h0
    exact htne (List.Perm.eq_nil (h0 ▸ hperm).symm)
  have hlast := List.getLast?_eq_getLast_of_ne_nil hsne
  rw [hlast]
  dsimp only
  refine ⟨(List.insertionSort tripleLe triples).getLast hsne, _, rfl, ?_, ?_, ?_⟩
  · exact dictSet_lookup_self _ _ _
  · exact hperm.mem_iff.mp (List.getLast_mem hsne)
  · intro t ht
    exact sorted_le_getLast (List.insertionSort tripleLe triples)
      (List.sorted_insertionSort tripleLe triples) t (hperm.mem_iff.mpr ht) _ hlast

/-- C10 witness at `["1.0.0", "0.2.1"]`. -/
theorem map_versions_latest_witness :
    (map_versions_to_latest_major_minor ["1.0.0", "0.2.1"] true =
      map_versions_to_latest_major_minor ["1.0.0", "0.2.1"] false) ∧
    (∃ best d, map_versions_to_latest_major_minor ["1.0.0", "0.2.1"] false = .ok d ∧
      d.lookup "latest" = some (tripleStr best) ∧ best ∈ [(1, 0, 0), (0, 2, 1)] ∧
      ∀ t ∈ [(1, 0, 0), (0, 2, 1)], tripleLe t best) := by
  have h := map_versions_latest ["1.0.0", "0.2.1"] [(1, 0, 0), (0, 2, 1)]
    (by decide) (by rfl)
  exact ⟨h.1 true false, h.2⟩

/-! ## Dictionary-merge lemmas for `rebuild_yaml` idempotence -/

/-- `dictSet` on a cons whose head key matches. -/
theorem dictSet_cons_eq {β : Type} (k : String) (v' v : β) (d : List (String × β)) :
    dictSet ((k, v') :: d) k v = (k, v) :: d := by
  show (if k = k then (k, v) :: d else (k, v') :: dictSet d k v) = (k, v) :: d
  rw [if_pos rfl]

/-- `dictSet` on a cons whose head key differs. -/
theorem dictSet_cons_ne {β : Type} (k' k : String) (v' : β) (v : β)
    (d : List (String × β)) (h : k' ≠ k) :
    dictSet ((k', v') :: d) k v = (k', v') :: dictSet d k v := by
  show (if k' = k then (k', v) :: d else (k', v') :: dictSet d k v) =
    (k', v') :: dictSet d k v
  rw [if_neg h]

/-- Head/tail membership for `dictKeys`. -/
theorem dictKeys_cons {β : Type} (k' : String) (v' : β) (d : List (String × β)) :
    dictKeys ((k', v') :: d) = k' :: dictKeys d := rfl

/-- Setting an existing key leaves the key list unchanged. -/
theorem dictKeys_dictSet_mem {β : Type} (d : List (String × β)) (k : String) (v : β)
    (h : k ∈ dictKeys d) : dictKeys (dictSet d k v) = dictKeys d := by
  induction d with
  | nil => simp [dictKeys] at h
  | cons p rest ih =>
    obtain ⟨k', v'⟩ := p
    by_cases hk : k' = k
    · subst hk
      rw [dictSet_cons_eq]
      rfl
    · rw [dictSet_cons_ne k' k v' v rest hk]
      have h' : k ∈ dictKeys rest := by
        rw [dictKeys_cons] at h
        rcases List.mem_cons.mp h with h | h
        · exact absurd h.symm hk
        · exact h
      rw [dictKeys_cons, dictKeys_cons, ih h']

/-- Setting an absent key appends it at the end. -/
theorem dictSet_not_mem_append {β : Type} (d : List (String × β)) (k : String) (v : β)
    (h : k ∉ dictKeys d) : dictSet d k v = d ++ [(k, v)] := by
  induction d with
  | nil => rfl
  | cons p rest ih =>
    obtain ⟨k', v'⟩ := p
    rw [dictKeys_cons] at h
    have hk : k' ≠ k := fun he => h (he ▸ List.mem_cons_self k' _)
    have h' : k ∉ dictKeys rest := fun hm => h (List.mem_cons_of_mem k' hm)
    rw [dictSet_cons_ne k' k v' v rest hk, ih h', List.cons_append]

/-- Setting a key that is not in the prefix acts on the suffix. -/
theorem dictSet_append_right {β : Type} (pre d : List (String × β)) (k : String) (v : β)
    (h : k ∉ dictKeys pre) : dictSet (pre ++ d) k v = pre ++ dictSet d k v := by
  induction pre with
  | nil => rfl
  | cons p rest ih =>
    obtain ⟨k', v'⟩ := p
    rw [dictKeys_cons] at h
    have hk : k' ≠ k := fun he => h (he ▸ List.mem_cons_self k' _)
    have h' : k ∉ dictKeys rest := fun hm => h (List.mem_cons_of_mem k' hm)
    rw [List.cons_append, dictSet_cons_ne k' k v' v (rest ++ d) hk, ih h', List.cons_append]

/-- Setting a key present in the prefix acts on the prefix. -/
theorem dictSet_append_left {β : Type} (vs t : List (String × β)) (k : String) (v : β)
    (h : k ∈ dictKeys vs) : dictSet (vs ++ t) k v = dictSet vs k v ++ t := by
  induction vs with
  | nil => simp [dictKeys] at h
  | cons p rest ih =>
    obtain ⟨k', v'⟩ := p
    by_cases hk : k' = k
    · subst hk
      rw [List.cons_append, dictSet_cons_eq, dictSet_cons_eq, List.cons_append]
    · have h' : k ∈ dictKeys rest := by
        rw [dictKeys_cons] at h
        rcases List.mem_cons.mp h with h | h
        · exact absurd h.symm hk
        · exact h
      rw [List.cons_append, dictSet_cons_ne k' k v' v (rest ++ t) hk, ih h',
        dictSet_cons_ne k' k v' v rest hk, List.cons_append]

/-- The replace phase: updating a dict whose tail `P` has exactly the key
list of `vs` (behind a prefix whose keys are disjoint from those) replaces
the `P` entries with the `vs` entries in place. -/
theorem dictUpdate_replace {β : Type} :
    ∀ (vs pre P : List (String × β)), dictKeys P = dictKeys vs →
      (dictKeys (pre ++ P)).Nodup → dictUpdate (pre ++ P) vs = pre ++ vs := by
  intro vs
  induction vs with
  | nil =>
    intro pre P hkeys _
    have : P = [] := by
      cases P with
      | nil => rfl
      | cons q Q => simp [dictKeys] at hkeys
    subst this
    simp [dictUpdate]
  | cons x vs ih =>
    intro pre P hkeys hnodup
    obtain ⟨k, v⟩ := x
    cases P with
    | nil => simp [dictKeys] at hkeys
    | cons q P' =>
      obtain ⟨kq, vq⟩ := q
      have hkq : kq = k := by
        simp only [dictKeys, List.map_cons, List.cons.injEq] at hkeys
        exact hkeys.1
      subst hkq
      have hkpre : kq ∉ dictKeys pre := by
        intro hmem
        have := hnodup
        simp only [dictKeys, List.map_append, List.map_cons, List.nodup_append] at this
        exact this.2.2 hmem (by simp)
      have hstep : dictUpdate (pre ++ (kq, vq) :: P') ((kq, v) :: vs) =
          dictUpdate (dictSet (pre ++ (kq, vq) :: P') kq v) vs := rfl
      rw [hstep, dictSet_append_right pre _ kq v hkpre]
      rw [dictSet_cons_eq]
      have hassoc : pre ++ (kq, v) :: P' = (pre ++ [(kq, v)]) ++ P' := by simp
      rw [hassoc]
      rw [ih (pre ++ [(kq, v)]) P' ?_ ?_]
      · simp
      · have := hkeys
        simp only [dictKeys, List.map_cons, List.cons.injEq] at this
        exact this.2
      · have : dictKeys ((pre ++ [(kq, v)]) ++ P') = dictKeys (pre ++ (kq, vq) :: P') := by
          simp [dictKeys]
        rw [this]
        exact hnodup

/-- The append phase: updating with entries whose keys are all fresh and
pairwise distinct appends them in order. -/
theorem dictUpdate_append_fresh {β : Type} :
    ∀ (t acc : List (String × β)),
      (∀ k ∈ dictKeys t, k ∉ dictKeys acc) → (dictKeys t).Nodup →
      dictUpdate acc t = acc ++ t := by
  intro t
  induction t with
  | nil =>
    intro acc _ _
    simp [dictUpdate]
  | cons x t ih =>
    intro acc hdisj hnodup
    obtain ⟨k, v⟩ := x
    have h1 : k ∉ dictKeys acc := hdisj k (by simp [dictKeys])
    have hstep : dictUpdate acc ((k, v) :: t) = dictUpdate (dictSet acc k v) t := rfl
    rw [hstep, dictSet_not_mem_append acc k v h1]
    rw [ih (acc ++ [(k, v)]) ?_ ?_]
    · simp
    · intro k' hk'
      have hk'in : k' ∈ dictKeys ((k, v) :: t) := by simp [dictKeys] at hk' ⊢; exact Or.inr hk'
      have hne : k' ≠ k := by
        intro he
        subst he
        have := hnodup
        simp only [dictKeys, List.map_cons, List.nodup_cons] at this
        exact this.1 hk'
      intro hmem
      simp only [dictKeys, List.map_append, List.map_cons, List.map_nil,
        List.mem_append, List.mem_cons] at hmem
      rcases hmem with hmem | hmem
      · exact hdisj k' hk'in hmem
      · rcases hmem with hmem | hmem
        · exact hne hmem
        · cases hmem
    · have := hnodup
      simp only [dictKeys, List.map_cons, List.nodup_cons] at this
      exact this.2

/-- Shape of `dictUpdate D E`: the entries at `D`'s keys, in `D`'s key
order, followed by the fresh keys of `E` in first-appearance order. -/
theorem dictUpdate_shape {β : Type} (D : List (String × β))
    (hD : (dictKeys D).Nodup) :
    ∀ E, ∃ vs t, dictUpdate D E = vs ++ t ∧ dictKeys vs = dictKeys D ∧
      (∀ k ∈ dictKeys t, k ∉ dictKeys D) ∧ (dictKeys t).Nodup := by
  intro E
  induction E using List.reverseRecOn with
  | nil => exact ⟨D, [], by simp [dictUpdate], rfl, by simp [dictKeys], by simp [dictKeys]⟩
  | append_singleton E p ihE =>
    obtain ⟨vs, t, heq, hkeys, hdisj, hnodup⟩ := ihE
    obtain ⟨k, v⟩ := p
    have hstep : dictUpdate D (E ++ [(k, v)]) = dictSet (dictUpdate D E) k v := by
      simp [dictUpdate, List.foldl_append]
    by_cases hk : k ∈ dictKeys D
    · refine ⟨dictSet vs k v, t, ?_, ?_, hdisj, hnodup⟩
      · rw [hstep, heq, dictSet_append_left vs t k v (hkeys ▸ hk)]
      · rw [dictKeys_dictSet_mem vs k v (hkeys ▸ hk), hkeys]
    · by_cases hkt : k ∈ dictKeys t
      · refine ⟨vs, dictSet t k v, ?_, hkeys, ?_, ?_⟩
        · rw [hstep, heq, dictSet_append_right vs t k v (hkeys ▸ hk)]
        · intro k' hk'
          rw [dictKeys_dictSet_mem t k v hkt] at hk'
          exact hdisj k' hk'
        · rw [dictKeys_dictSet_mem t k v hkt]
          exact hnodup
      · refine ⟨vs, t ++ [(k, v)], ?_, hkeys, ?_, ?_⟩
        · rw [hstep, heq, dictSet_append_right vs t k v (hkeys ▸ hk),
            dictSet_not_mem_append t k v hkt]
        · intro k' hk'
          simp only [dictKeys, List.map_append, List.map_cons, List.map_nil,
            List.mem_append, List.mem_cons] at hk'
          rcases hk' with hk' | hk'
          · exact hdisj k' hk'
          · rcases hk' with hk' | hk'
            · subst hk'
              exact hk
            · cases hk'
        · simp only [dictKeys, List.map_append, List.map_cons, List.map_nil]
          rw [List.nodup_append]
          refine ⟨hnodup, by simp, ?_⟩
          intro k' hk' hk''
          simp at hk''
          subst hk''
          exact hkt hk'

/-- `d.update(x)` is idempotent in the sense needed by `rebuild_yaml`:
re-updating `D` with an already-updated dict gives it back unchanged
(Python dict keys of `D` are distinct by construction). -/
theorem dictUpdate_update_self {β : Type} (D E : List (String × β))
    (hD : (dictKeys D).Nodup) :
    dictUpdate D (dictUpdate D E) = dictUpdate D E := by
  obtain ⟨vs, t, heq, hkeys, hdisj, hnodup⟩ := dictUpdate_shape D hD E
  rw [heq]
  have h1 : dictUpdate D (vs ++ t) = dictUpdate (dictUpdate D vs) t := by
    simp [dictUpdate, List.foldl_append]
  rw [h1]
  have h2 : dictUpdate D vs = vs := by
    simpa using dictUpdate_replace vs [] D hkeys.symm (by simpa using hD)
  rw [h2]
  exact dictUpdate_append_fresh t vs
    (fun k hk => by rw [hkeys]; exact hdisj k hk) hnodup

/-! ## Schema-inference idempotence lemmas -/

/-- Looking up a name absent from the column list in the descriptions
harvested from a generated schema gives nothing. -/
theorem lookup_filterMap_none (descs : List (String × String)) :
    ∀ (cols : PyTable) (nm : String), nm ∉ cols.map Prod.fst →
      List.lookup nm
        (cols.filterMap fun p => (descs.lookup p.1).map fun d => (p.1, d)) = none := by
  intro cols
  induction cols with
  | nil => intro nm _; rfl
  | cons p rest ih =>
    intro nm hnm
    obtain ⟨nm', col⟩ := p
    simp only [List.map_cons, List.mem_cons] at hnm
    push_neg at hnm
    simp only [List.filterMap_cons]
    cases hd : List.lookup nm' descs with
    | none => exact ih nm hnm.2
    | some d =>
      have hbeq : (nm == nm') = false := beq_false_of_ne hnm.1
      simp only [Option.map_some', List.lookup, hbeq]
      exact ih nm hnm.2

/-- With distinct column names, looking up a column name in the
descriptions harvested from a generated schema recovers the original
description source at that name. -/
theorem lookup_filterMap_descs (descs : List (String × String)) :
    ∀ (cols : PyTable) (nm : String), (cols.map Prod.fst).Nodup →
      nm ∈ cols.map Prod.fst →
      List.lookup nm
        (cols.filterMap fun p => (descs.lookup p.1).map fun d => (p.1, d)) =
        List.lookup nm descs := by
  intro cols
  induction cols with
  | nil => intro nm _ h; cases h
  | cons p rest ih =>
    intro nm hnodup hmem
    obtain ⟨nm', col⟩ := p
    simp only [List.map_cons, List.nodup_cons] at hnodup
    simp only [List.map_cons, List.mem_cons] at hmem
    simp only [List.filterMap_cons]
    by_cases heq : nm = nm'
    · subst heq
      cases hd : List.lookup nm descs with
      | none => exact lookup_filterMap_none descs rest nm hnodup.1
      | some d =>
        simp only [Option.map_some', List.lookup, beq_self_eq_true]
    · have hmem' : nm ∈ rest.map Prod.fst := by
        rcases hmem with h | h
        · exact absurd h heq
        · exact h
      cases hd : List.lookup nm' descs with
      | none => exact ih nm hnodup.2 hmem'
      | some d =>
        have hbeq : (nm == nm') = false := beq_false_of_ne heq
        simp only [Option.map_some', List.lookup, hbeq]
        exact ih nm hnodup.2 hmem'

/-- The descriptions harvested from a schema generated with description
source `descs` agree with `descs` at every column name. -/
theorem get_descriptions_generated (inferType : List Cell → String) (table : PyTable)
    (descs : List (String × String)) :
    get_descriptions_from_schema
        (table.map fun p => enhance_field p.1 (inferType p.2) p.2 descs (safe_unique p.2)) =
      table.filterMap fun p => (descs.lookup p.1).map fun d => (p.1, d) := by
  unfold get_descriptions_from_schema
  rw [List.filterMap_map]
  apply List.filterMap_congr
  intro p _
  rfl

/-- Rebuilding the table schema from an unchanged table with descriptions
harvested from its own previous rebuild reproduces the previous rebuild
(the column names are distinct in a dataframe). -/
theorem update_table_schema_idem (inferType : List Cell → String) (table : PyTable)
    (ht : (table.map Prod.fst).Nodup) (existing : Option (List FieldSchema)) :
    update_table_schema inferType table
        (some (update_table_schema inferType table existing)) =
      update_table_schema inferType table existing := by
  have key : ∀ descs : List (String × String),
      update_table_schema inferType table
          (some (table.map fun p =>
            enhance_field p.1 (inferType p.2) p.2 descs (safe_unique p.2))) =
        table.map fun p =>
          enhance_field p.1 (inferType p.2) p.2 descs (safe_unique p.2) := by
    intro descs
    show table.map (fun p =>
        enhance_field p.1 (inferType p.2) p.2
          (get_descriptions_from_schema (table.map fun q =>
            enhance_field q.1 (inferType q.2) q.2 descs (safe_unique q.2)))
          (safe_unique p.2)) = _
    rw [get_descriptions_generated]
    apply List.map_congr_left
    intro p hp
    unfold enhance_field
    rw [lookup_filterMap_descs descs table p.1 ht (List.mem_map_of_mem Prod.fst hp)]
  cases existing with
  | none => exact key []
  | some fields => exact key (get_descriptions_from_schema fields)

/-- Blanking the geometry example does not touch names or descriptions,
so the harvested descriptions are unchanged. -/
theorem get_descriptions_blankGeometry (g : Bool) (s : List FieldSchema) :
    get_descriptions_from_schema (blankGeometryExample g s) =
      get_descriptions_from_schema s := by
  unfold blankGeometryExample
  cases g with
  | false => rfl
  | true =>
    rw [if_pos rfl]
    unfold get_descriptions_from_schema
    rw [List.filterMap_map]
    apply List.filterMap_congr
    intro f _
    by_cases hf : f.name = "geometry"
    · simp [hf]
    · simp [hf]

/-- `update_table_schema` reads the existing schema only through its
harvested descriptions. -/
theorem update_table_schema_congr_descs (inferType : List Cell → String)
    (table : PyTable) (a b : List FieldSchema)
    (h : get_descriptions_from_schema a = get_descriptions_from_schema b) :
    update_table_schema inferType table (some a) =
      update_table_schema inferType table (some b) := by
  show (table.map fun p =>
      enhance_field p.1 (inferType p.2) p.2 (get_descriptions_from_schema a)
        (safe_unique p.2)) =
    table.map fun p =>
      enhance_field p.1 (inferType p.2) p.2 (get_descriptions_from_schema b)
        (safe_unique p.2)
  rw [h]

/-- C9: `rebuild_yaml` is idempotent over an unchanged data file: applied
a second time with the sidecar it has just produced, it produces the very
same sidecar document (so the serialized yaml bytes are identical, the
serializer being a function of the document).  All collaborator inputs —
inferred types, `describe` keys, digest, row count, parsed table — are
functions of the unchanged data file and therefore the same in both
calls; the `describe` dict and the dataframe have distinct keys/column
names. -/
theorem rebuild_yaml_idempotent
    (inferType : List Cell → String) (describeExtra : List (String × String))
    (table : PyTable) (fileName md5 : String) (rowCount : Nat) (isGeodata : Bool)
    (existing : Option Sidecar)
    (hD : (dictKeys describeExtra).Nodup)
    (ht : (table.map Prod.fst).Nodup) :
    rebuild_yaml inferType describeExtra table fileName md5 rowCount isGeodata
        (some (rebuild_yaml inferType describeExtra table fileName md5 rowCount
          isGeodata existing)) =
      rebuild_yaml inferType describeExtra table fileName md5 rowCount isGeodata
        existing := by
  unfold rebuild_yaml
  dsimp only
  simp only [Sidecar.mk.injEq]
  refine ⟨trivial, trivial, trivial, trivial, trivial, ?_, trivial, ?_⟩
  · simp only [Option.map_some']
    refine congrArg (blankGeometryExample isGeodata) ?_
    rw [update_table_schema_congr_descs inferType table _ _
      (get_descriptions_blankGeometry isGeodata _)]
    exact update_table_schema_idem inferType table ht _
  · exact dictUpdate_update_self describeExtra _ hD

/-- C9 witness: a one-column table, rebuilt twice from scratch. -/
theorem rebuild_yaml_idempotent_witness :
    rebuild_yaml (fun _ => "string") [("format", "csv")] [("c", [some "a"])]
        "c.csv" "0cc175b9c0f1b6a831c399e269772661" 1 false
        (some (rebuild_yaml (fun _ => "string") [("format", "csv")]
          [("c", [some "a"])] "c.csv" "0cc175b9c0f1b6a831c399e269772661" 1 false none)) =
      rebuild_yaml (fun _ => "string") [("format", "csv")] [("c", [some "a"])]
        "c.csv" "0cc175b9c0f1b6a831c399e269772661" 1 false none :=
  rebuild_yaml_idempotent (fun _ => "string") [("format", "csv")] [("c", [some "a"])]
    "c.csv" "0cc175b9c0f1b6a831c399e269772661" 1 false none (by decide) (by decide)

end DataCommon
